import Mathlib

/-!
Verification of the holiday-manager leave ledger and availability engine.

Shallow embedding conventions:
* Dates are whole days, encoded as days since 1970-01-01 (the system parses
  dates at UTC midnight, so every date value is a whole-day multiple and the
  millisecond arithmetic of the source divides exactly).
* Record and employee ids are naturals (the store generates opaque unique ids).
* The Prisma store is a pair of lists (employees, leave records); `create`
  appends, `update` replaces by id, `delete` filters by id, and `findFirst` /
  `find` scan in natural (insertion) order.
* Fallible request handlers return an explicit result alongside the new state.
-/

namespace HolidayManager

/-- Leave record status, from the Prisma schema (`APPROVED`, `PENDING`, `REJECTED`). -/
inductive LeaveStatus
  | APPROVED
  | PENDING
  | REJECTED
deriving DecidableEq

/-- Leave type, from the Prisma schema. -/
inductive LeaveType
  | ANNUAL
  | SICK
  | PERSONAL
  | MATERNITY
  | PATERNITY
deriving DecidableEq

/-- Denormalized availability snapshot values stored on `Employee.currentStatus`. -/
inductive AvailabilityStatus
  | available
  | on_leave
  | returning_soon
deriving DecidableEq

/-- A leave record row (`prisma.leaveRecord`). -/
structure LeaveRecord where
  id : Nat
  employeeId : Nat
  startDate : Nat
  endDate : Nat
  totalDays : Int
  workingDays : Int
  type : LeaveType
  status : LeaveStatus
  notes : Option String
  bonus : Option Int
  year : Int
deriving DecidableEq

/-- An employee row (`prisma.employee`), restricted to the fields the engine touches. -/
structure Employee where
  id : Nat
  annualLeaveEntitlement : Int
  currentStatus : AvailabilityStatus
  currentLeaveStartDate : Option Nat
  currentLeaveEndDate : Option Nat
  currentLeaveType : Option LeaveType
deriving DecidableEq

/-! ## Calendar arithmetic (src/lib/api-utils.ts) -/

/-- Civil-calendar helper: leap year test (Gregorian). -/
def isLeapYear (y : Nat) : Bool :=
  (y % 4 == 0 && y % 100 != 0) || y % 400 == 0

/-- Days in the months strictly before month `m` (1-based) of a year. -/
def daysBeforeMonth (m : Nat) (leap : Bool) : Nat :=
  match m with
  | 1 => 0
  | 2 => 31
  | 3 => 59 + (if leap then 1 else 0)
  | 4 => 90 + (if leap then 1 else 0)
  | 5 => 120 + (if leap then 1 else 0)
  | 6 => 151 + (if leap then 1 else 0)
  | 7 => 181 + (if leap then 1 else 0)
  | 8 => 212 + (if leap then 1 else 0)
  | 9 => 243 + (if leap then 1 else 0)
  | 10 => 273 + (if leap then 1 else 0)
  | 11 => 304 + (if leap then 1 else 0)
  | _ => 334 + (if leap then 1 else 0)

/-- `epochDay y m d` is the number of days from 1970-01-01 (the zero of the
JS `Date` encoding, at UTC midnight) to the civil date `y-m-d`, for `y ≥ 1970`. -/
def epochDay (y m d : Nat) : Nat :=
  (y - 1970) * 365 + ((y - 1) / 4 - (y - 1) / 100 + (y - 1) / 400 - 477)
    + daysBeforeMonth m (isLeapYear y) + (d - 1)

/-- JS `Date.getDay()` on a whole-day date: 0 = Sunday … 6 = Saturday
(1970-01-01 was a Thursday, day number 4). -/
def getDay (d : Nat) : Nat := (d + 4) % 7

/-- The weekday test of the `calculateWorkingDays` loop body:
`dayOfWeek !== 0 && dayOfWeek !== 6` (not Sunday, not Saturday). -/
def isWorkingDay (d : Nat) : Bool :=
  getDay d != 0 && getDay d != 6

/-- The `while (current <= endDate)` loop of `calculateWorkingDays`,
with explicit fuel equal to the exact number of iterations. -/
def workingDaysLoop : Nat → Nat → Nat → Nat
  | 0, _, _ => 0
  | fuel + 1, current, endDate =>
    if current ≤ endDate then
      (if isWorkingDay current then 1 else 0) + workingDaysLoop fuel (current + 1) endDate
    else 0

/-- `calculateWorkingDays` from src/lib/api-utils.ts: iterate each day from
`startDate` to `endDate` inclusive, counting Monday–Friday days. -/
def calculateWorkingDays (startDate endDate : Nat) : Nat :=
  workingDaysLoop (endDate + 1 - startDate) startDate endDate

/-- `calculateTotalDays` from src/lib/api-utils.ts:
`Math.ceil((end − start) / day) + 1`; on whole-day dates the division is exact,
so the ceiling is the signed day difference itself. -/
def calculateTotalDays (startDate endDate : Nat) : Int :=
  ((endDate : Int) - (startDate : Int)) + 1

/-- `datesOverlap` from src/lib/api-utils.ts:
`start1 <= end2 && start2 <= end1` on closed whole-day intervals. -/
def datesOverlap (start1 end1 start2 end2 : Nat) : Bool :=
  decide (start1 ≤ end2) && decide (start2 ≤ end1)

/-- `getYearFromDate` is the civil-year component; only used through the
records' stored `year` field in the claims below. -/
def isValidDateRange (startDate endDate : Nat) : Bool :=
  decide (startDate ≤ endDate)

/-! ## The store (src/app/api/leave-records routes over Prisma) -/

/-- The persistent state: the employee table and the leave-record table,
in insertion order (`findFirst`/`find` scan in this order). -/
structure SystemState where
  employees : List Employee
  leaveRecords : List LeaveRecord
deriving DecidableEq

/-- Body of `POST /api/leave-records`. Absent JSON keys are `none`.
The handler destructures only the fields below; a caller-supplied `status`
key is part of the JSON body but is never read by the handler. -/
structure CreateBody where
  employeeId : Option Nat
  startDate : Option Nat
  endDate : Option Nat
  totalDays : Option Int
  workingDays : Option Int
  type : Option LeaveType
  notes : Option String
  bonus : Option Int
  status : Option LeaveStatus
  year : Option Int
deriving DecidableEq

/-- Body of `PUT /api/leave-records/{id}`. Absent JSON keys are `none`. -/
structure UpdateBody where
  startDate : Option Nat
  endDate : Option Nat
  totalDays : Option Int
  workingDays : Option Int
  type : Option LeaveType
  status : Option LeaveStatus
  notes : Option String
  bonus : Option Int
  year : Option Int
deriving DecidableEq

/-- The `details.conflictingLeave` payload of a 409 response: the colliding
record's id, period (its start and end dates), type and status. -/
structure ConflictInfo where
  id : Nat
  periodStart : Nat
  periodEnd : Nat
  type : LeaveType
  status : LeaveStatus
deriving DecidableEq

/-- Outcome of the POST handler. `missingFields` and `invalidDates` are the
400 responses, `employeeNotFound` the 404, `conflict` the 409 (carrying the
conflicting-leave details and the requested period), `created` the success. -/
inductive PostResult
  | missingFields
  | employeeNotFound
  | invalidDates
  | conflict (c : ConflictInfo) (requestedStart requestedEnd : Nat)
  | created (r : LeaveRecord)
deriving DecidableEq

/-- Outcome of the PUT handler (same coding as `PostResult`;
`recordNotFound` is the 404). -/
inductive PutResult
  | missingFields
  | invalidDates
  | recordNotFound
  | conflict (c : ConflictInfo) (requestedStart requestedEnd : Nat)
  | updated (r : LeaveRecord)
deriving DecidableEq

/-- Outcome of the DELETE handler. -/
inductive DeleteResult
  | recordNotFound
  | deleted
deriving DecidableEq

/-- The employee's APPROVED/PENDING records: the `findMany` where-clause of the
POST overlap check (`employeeId` equal, `status in [APPROVED, PENDING]`). -/
def activeRecordsOf (s : SystemState) (employeeId : Nat) : List LeaveRecord :=
  s.leaveRecords.filter fun r =>
    r.employeeId == employeeId && (r.status == .APPROVED || r.status == .PENDING)

/-- The `findMany` where-clause of the PUT overlap check: as `activeRecordsOf`
but excluding the record being updated (`id: { not: id }`). -/
def otherActiveRecordsOf (s : SystemState) (employeeId recordId : Nat) : List LeaveRecord :=
  s.leaveRecords.filter fun r =>
    r.employeeId == employeeId && (r.status == .APPROVED || r.status == .PENDING)
      && r.id != recordId

/-- The `findFirst` where-clause used by PUT and DELETE to look for a
remaining current leave: `status APPROVED`, `startDate ≤ today ≤ endDate`. -/
def currentActiveLeave (records : List LeaveRecord) (employeeId today : Nat) :
    Option LeaveRecord :=
  records.find? fun r =>
    r.employeeId == employeeId && r.status == .APPROVED
      && decide (r.startDate ≤ today) && decide (today ≤ r.endDate)

/-- `prisma.employee.update` of the snapshot fields for employee `employeeId`. -/
def updateEmployeeSnapshot (s : SystemState) (employeeId : Nat)
    (st : AvailabilityStatus) (sd ed : Option Nat) (ty : Option LeaveType) :
    SystemState :=
  { s with
    employees := s.employees.map fun e =>
      if e.id == employeeId then
        { e with currentStatus := st, currentLeaveStartDate := sd,
                 currentLeaveEndDate := ed, currentLeaveType := ty }
      else e }

/-- Fresh record id for `create`: the store guarantees generated ids are
distinct from every existing id. -/
def freshId (s : SystemState) : Nat :=
  (s.leaveRecords.map (·.id)).foldr max 0 + 1

/-- `POST /api/leave-records` (src/app/api/leave-records/route.ts).
Order of checks follows the source: required fields (JS-falsy numeric values
count as missing), employee existence, `start < end`, overlap against the
employee's APPROVED/PENDING records; then create (status hard-coded APPROVED)
and, when the new period covers today, refresh the owner's snapshot. -/
def post (s : SystemState) (body : CreateBody) (today : Nat) :
    PostResult × SystemState :=
  match body.employeeId, body.startDate, body.endDate, body.totalDays,
        body.workingDays, body.type, body.year with
  | some employeeId, some sd, some ed, some totalDays, some workingDays,
    some ty, some year =>
    if totalDays = 0 ∨ workingDays = 0 ∨ year = 0 then (.missingFields, s)
    else match s.employees.find? (fun e => e.id == employeeId) with
    | none => (.employeeNotFound, s)
    | some _ =>
      if ed ≤ sd then (.invalidDates, s)
      else
        match (activeRecordsOf s employeeId).find?
            (fun r => datesOverlap sd ed r.startDate r.endDate) with
        | some ol =>
          (.conflict ⟨ol.id, ol.startDate, ol.endDate, ol.type, ol.status⟩ sd ed, s)
        | none =>
          let newRecord : LeaveRecord :=
            ⟨freshId s, employeeId, sd, ed, totalDays, workingDays, ty,
             .APPROVED, body.notes, body.bonus, year⟩
          let s1 : SystemState :=
            { s with leaveRecords := s.leaveRecords ++ [newRecord] }
          let s2 : SystemState :=
            if sd ≤ today ∧ today ≤ ed then
              updateEmployeeSnapshot s1 employeeId
                (if ed - today ≤ 3 then .returning_soon else .on_leave)
                (some sd) (some ed) (some ty)
            else s1
          (.created newRecord, s2)
  | _, _, _, _, _, _, _ => (.missingFields, s)

/-- `PUT /api/leave-records/{id}` (src/app/api/leave-records/[id]/route.ts).
Order of checks follows the source: required fields, `start < end`, record
existence, overlap against the employee's *other* APPROVED/PENDING records;
then update, then the partial snapshot refresh of the source: set the
snapshot from the updated record when it is APPROVED and covers today; when
the new status is not APPROVED and no APPROVED record covers today any more,
reset the snapshot to available; otherwise leave the snapshot untouched. -/
def put (s : SystemState) (recordId : Nat) (body : UpdateBody) (today : Nat) :
    PutResult × SystemState :=
  match body.startDate, body.endDate, body.totalDays, body.workingDays,
        body.type, body.status, body.year with
  | some sd, some ed, some totalDays, some workingDays, some ty, some st,
    some year =>
    if totalDays = 0 ∨ workingDays = 0 ∨ year = 0 then (.missingFields, s)
    else if ed ≤ sd then (.invalidDates, s)
    else match s.leaveRecords.find? (fun r => r.id == recordId) with
    | none => (.recordNotFound, s)
    | some existing =>
      match (otherActiveRecordsOf s existing.employeeId recordId).find?
          (fun r => datesOverlap sd ed r.startDate r.endDate) with
      | some ol =>
        (.conflict ⟨ol.id, ol.startDate, ol.endDate, ol.type, ol.status⟩ sd ed, s)
      | none =>
        let newRecord : LeaveRecord :=
          ⟨recordId, existing.employeeId, sd, ed, totalDays, workingDays, ty,
           st, body.notes, body.bonus, year⟩
        let s1 : SystemState :=
          { s with
            leaveRecords := s.leaveRecords.map fun r =>
              if r.id == recordId then newRecord else r }
        let s2 : SystemState :=
          if sd ≤ today ∧ today ≤ ed ∧ st = .APPROVED then
            updateEmployeeSnapshot s1 existing.employeeId
              (if ed - today ≤ 3 then .returning_soon else .on_leave)
              (some sd) (some ed) (some ty)
          else if st ≠ .APPROVED then
            match currentActiveLeave s1.leaveRecords existing.employeeId today with
            | some _ => s1
            | none => updateEmployeeSnapshot s1 existing.employeeId .available none none none
          else s1
        (.updated newRecord, s2)
  | _, _, _, _, _, _, _ => (.missingFields, s)

/-- `DELETE /api/leave-records/{id}` (src/app/api/leave-records/[id]/route.ts).
Look up the record, remove it, then re-derive the owner's snapshot from the
remaining records: the first APPROVED record covering today, if any, with the
returning-soon threshold `daysRemaining ≤ 3`; otherwise available, cleared. -/
def del (s : SystemState) (recordId : Nat) (today : Nat) :
    DeleteResult × SystemState :=
  match s.leaveRecords.find? (fun r => r.id == recordId) with
  | none => (.recordNotFound, s)
  | some existing =>
    let s1 : SystemState :=
      { s with leaveRecords := s.leaveRecords.filter fun r => r.id != recordId }
    let s2 : SystemState :=
      match currentActiveLeave s1.leaveRecords existing.employeeId today with
      | some active =>
        updateEmployeeSnapshot s1 existing.employeeId
          (if active.endDate - today ≤ 3 then .returning_soon else .on_leave)
          (some active.startDate) (some active.endDate) (some active.type)
      | none => updateEmployeeSnapshot s1 existing.employeeId .available none none none
    (.deleted, s2)

/-- One mutating operation of the leave-record API. -/
inductive Op
  | create (body : CreateBody)
  | update (recordId : Nat) (body : UpdateBody)
  | remove (recordId : Nat)
deriving DecidableEq

/-- The state reached by one operation (the response is discarded). -/
def applyOp (today : Nat) (s : SystemState) : Op → SystemState
  | .create body => (post s body today).2
  | .update recordId body => (put s recordId body today).2
  | .remove recordId => (del s recordId today).2

/-- The state reached by a sequence of operations. -/
def applyOps (today : Nat) (s : SystemState) (ops : List Op) : SystemState :=
  ops.foldl (applyOp today) s

/-! ## Balance accounting (src/data/mockData.ts, src/app/employee/[id]/page.tsx) -/

/-- `getLeaveRecordsByEmployeeAndYear` from src/data/mockData.ts,
parametrised by the record table it reads. -/
def getLeaveRecordsByEmployeeAndYear (records : List LeaveRecord)
    (employeeId : Nat) (year : Int) : List LeaveRecord :=
  records.filter fun r => r.employeeId == employeeId && r.year == year

/-- `calculateUsedLeaveDays` from src/data/mockData.ts: sum of `workingDays`
over the employee's APPROVED ANNUAL records of the given year. -/
def calculateUsedLeaveDays (records : List LeaveRecord)
    (employeeId : Nat) (year : Int) : Int :=
  ((getLeaveRecordsByEmployeeAndYear records employeeId year).filter
    (fun r => r.status == .APPROVED && r.type == .ANNUAL)).foldl
      (fun total r => total + r.workingDays) 0

/-- `remainingAnnualDays` from src/app/employee/[id]/page.tsx:
`annualLeaveEntitlement − usedAnnualDays`. -/
def remainingAnnualDays (entitlement : Int) (records : List LeaveRecord)
    (employeeId : Nat) (year : Int) : Int :=
  entitlement - calculateUsedLeaveDays records employeeId year

/-! ## Spec-side definitions

The definitions below are written from the specification's words, to be
compared with the handler translations above. -/

/-- The availability snapshot value: `currentStatus` plus the optional
`currentLeave` fields. -/
structure Snapshot where
  currentStatus : AvailabilityStatus
  currentLeaveStartDate : Option Nat
  currentLeaveEndDate : Option Nat
  currentLeaveType : Option LeaveType
deriving DecidableEq

/-- The snapshot stored on an employee row. -/
def empSnapshot (e : Employee) : Snapshot :=
  ⟨e.currentStatus, e.currentLeaveStartDate, e.currentLeaveEndDate, e.currentLeaveType⟩

/-- The Availability Deriver of spec §4.3: among the given records, find the
APPROVED one whose closed interval contains `now`; none means available with
the leave fields cleared, otherwise `returning_soon` when
`ceil((endDate − now) / 1 day) ≤ 3` and `on_leave` otherwise, with the
record's dates and type. -/
def availabilityDeriver (records : List LeaveRecord) (now : Nat) : Snapshot :=
  match records.find?
      (fun r => r.status == .APPROVED
        && decide (r.startDate ≤ now) && decide (now ≤ r.endDate)) with
  | none => ⟨.available, none, none, none⟩
  | some r =>
    ⟨if r.endDate - now ≤ 3 then .returning_soon else .on_leave,
     some r.startDate, some r.endDate, some r.type⟩

/-- The record set owned by one employee. -/
def employeeRecords (s : SystemState) (employeeId : Nat) : List LeaveRecord :=
  s.leaveRecords.filter fun r => r.employeeId == employeeId

/-- Snapshot consistency (spec §8): every employee's stored snapshot equals
the Availability Deriver applied to that employee's record set and today. -/
def snapshotConsistent (s : SystemState) (today : Nat) : Prop :=
  ∀ e ∈ s.employees, empSnapshot e = availabilityDeriver (employeeRecords s e.id) today

/-- A record participating in the overlap universe: status APPROVED or PENDING. -/
def isActive (r : LeaveRecord) : Bool :=
  r.status == .APPROVED || r.status == .PENDING

/-- Two distinct records do not conflict: if they belong to the same employee
and both are active, their intervals do not overlap. -/
def noConflict (r1 r2 : LeaveRecord) : Prop :=
  r1.employeeId = r2.employeeId → isActive r1 = true → isActive r2 = true →
    datesOverlap r1.startDate r1.endDate r2.startDate r2.endDate = false

/-- The no-overlap invariant (spec §8): pairwise over the record table,
no two active records of one employee overlap. -/
def noOverlapInv (records : List LeaveRecord) : Prop :=
  records.Pairwise noConflict

/-- Record ids are pairwise distinct (guaranteed by the store's unique id). -/
def idsNodup (records : List LeaveRecord) : Prop :=
  (records.map (·.id)).Nodup

/-- Working-day count as the spec words it: the number of days of the closed
interval `[startDate, endDate]` whose weekday is Monday through Friday. -/
def workingDaysSpec (startDate endDate : Nat) : Nat :=
  ((List.range' startDate (endDate + 1 - startDate)).filter isWorkingDay).length

/-! ## Helper lemmas -/

/-- The overlap test is symmetric in its two intervals. -/
theorem datesOverlap_comm (s1 e1 s2 e2 : Nat) :
    datesOverlap s1 e1 s2 e2 = datesOverlap s2 e2 s1 e1 := by
  simp [datesOverlap, Bool.and_comm]

/-- Finding in a filtered list is finding with the conjoined predicate. -/
theorem find?_filter_eq {α : Type} (l : List α) (p q : α → Bool) :
    (l.filter p).find? q = l.find? fun a => p a && q a := by
  induction l with
  | nil => rfl
  | cons a l ih =>
    by_cases hp : p a
    · by_cases hq : q a <;> simp [List.filter_cons, List.find?_cons, hp, hq, ih]
    · simp [List.filter_cons, List.find?_cons, hp, ih]

/-- The while-loop of `calculateWorkingDays`, run with fuel equal to its exact
iteration count, computes the spec's working-day count. -/
theorem workingDaysLoop_eq_spec (fuel : Nat) :
    ∀ startDate endDate : Nat, fuel = endDate + 1 - startDate →
      workingDaysLoop fuel startDate endDate = workingDaysSpec startDate endDate := by
  induction fuel with
  | zero =>
    intro s e h
    have h0 : e + 1 - s = 0 := h.symm
    simp [workingDaysLoop, workingDaysSpec, h0]
  | succ n ih =>
    intro s e h
    have hle : s ≤ e := by omega
    have h2 : n = e + 1 - (s + 1) := by omega
    have hrw : e + 1 - s = n + 1 := h.symm
    rw [workingDaysLoop, if_pos hle, ih (s + 1) e h2, workingDaysSpec,
      workingDaysSpec, hrw, ← h2, List.range'_succ, List.filter_cons]
    by_cases hw : isWorkingDay s <;> simp [hw, Nat.add_comm]

/-- `calculateWorkingDays` agrees with the spec's working-day count. -/
theorem calculateWorkingDays_eq_spec (startDate endDate : Nat) :
    calculateWorkingDays startDate endDate = workingDaysSpec startDate endDate :=
  workingDaysLoop_eq_spec _ startDate endDate rfl

/-! ## Claims -/

/-- C5: `datesOverlap` is the closed-interval overlap test
(`s1 ≤ e2 ∧ s2 ≤ e1`, touching endpoints count), and on the spec's three
concrete 2024-06 examples it returns true, false and true respectively. -/
theorem datesOverlap_closed_interval_iff (s1 e1 s2 e2 : Nat)
    (h1 : s1 ≤ e1) (h2 : s2 ≤ e2) :
    (datesOverlap s1 e1 s2 e2 = true ↔ (s1 ≤ e2 ∧ s2 ≤ e1)) ∧
    datesOverlap (epochDay 2024 6 10) (epochDay 2024 6 15)
      (epochDay 2024 6 12) (epochDay 2024 6 18) = true ∧
    datesOverlap (epochDay 2024 6 10) (epochDay 2024 6 12)
      (epochDay 2024 6 15) (epochDay 2024 6 18) = false ∧
    datesOverlap (epochDay 2024 6 10) (epochDay 2024 6 12)
      (epochDay 2024 6 12) (epochDay 2024 6 14) = true := by
  refine ⟨?_, by decide, by decide, by decide⟩
  simp [datesOverlap]

/-- Witness for C5 at the first concrete example pair. -/
theorem datesOverlap_closed_interval_iff_witness :
    datesOverlap (epochDay 2024 6 10) (epochDay 2024 6 15)
      (epochDay 2024 6 12) (epochDay 2024 6 18) = true ↔
    (epochDay 2024 6 10 ≤ epochDay 2024 6 18 ∧
     epochDay 2024 6 12 ≤ epochDay 2024 6 15) :=
  (datesOverlap_closed_interval_iff (epochDay 2024 6 10) (epochDay 2024 6 15)
    (epochDay 2024 6 12) (epochDay 2024 6 18) (by decide) (by decide)).1

/-- C6: for `start ≤ end`, `calculateTotalDays` is the inclusive calendar-day
count `(end − start) + 1` and `calculateWorkingDays` is the number of
Monday–Friday days of `[start, end]`; concretely the Mon–Fri week
2024-03-11..2024-03-15 gives 5 and 5, and the weekend 2024-03-09..2024-03-10
gives 0 working days. -/
theorem calendar_day_counts (startDate endDate : Nat) (h : startDate ≤ endDate) :
    calculateTotalDays startDate endDate = ((endDate - startDate : Nat) : Int) + 1 ∧
    calculateWorkingDays startDate endDate = workingDaysSpec startDate endDate ∧
    calculateTotalDays (epochDay 2024 3 11) (epochDay 2024 3 15) = 5 ∧
    calculateWorkingDays (epochDay 2024 3 11) (epochDay 2024 3 15) = 5 ∧
    calculateWorkingDays (epochDay 2024 3 9) (epochDay 2024 3 10) = 0 := by
  refine ⟨?_, calculateWorkingDays_eq_spec _ _, by decide, by decide, by decide⟩
  unfold calculateTotalDays
  omega

/-- Witness for C6 at the concrete Mon–Fri week. -/
theorem calendar_day_counts_witness :
    calculateTotalDays (epochDay 2024 3 11) (epochDay 2024 3 15) =
      ((epochDay 2024 3 15 - epochDay 2024 3 11 : Nat) : Int) + 1 :=
  (calendar_day_counts (epochDay 2024 3 11) (epochDay 2024 3 15) (by decide)).1

/-- C10: the remaining annual balance is the entitlement minus the sum of
`workingDays` over exactly the employee's APPROVED ANNUAL records of the
year; prepending a PENDING or REJECTED record changes nothing; and
entitlement 25 with APPROVED ANNUAL records of 5 and 6 working days (plus a
PENDING and a REJECTED one that must not count) leaves 14. -/
theorem annual_balance_projection (entitlement : Int) (records : List LeaveRecord)
    (employeeId : Nat) (year : Int) (r : LeaveRecord)
    (hr : r.status = .PENDING ∨ r.status = .REJECTED) :
    remainingAnnualDays entitlement records employeeId year =
      entitlement - ((records.filter fun rec =>
        rec.employeeId == employeeId && rec.year == year
          && rec.status == .APPROVED && rec.type == .ANNUAL).map
            (fun rec => rec.workingDays)).sum ∧
    calculateUsedLeaveDays (r :: records) employeeId year =
      calculateUsedLeaveDays records employeeId year ∧
    remainingAnnualDays 25
      [⟨1, 1, 19723, 19729, 7, 5, .ANNUAL, .APPROVED, none, none, 2024⟩,
       ⟨2, 1, 19750, 19757, 8, 6, .ANNUAL, .APPROVED, none, none, 2024⟩,
       ⟨3, 1, 19800, 19805, 6, 4, .ANNUAL, .PENDING, none, none, 2024⟩,
       ⟨4, 1, 19810, 19814, 5, 3, .ANNUAL, .REJECTED, none, none, 2024⟩]
      1 2024 = 14 := by
  refine ⟨?_, ?_, by decide⟩
  · unfold remainingAnnualDays calculateUsedLeaveDays getLeaveRecordsByEmployeeAndYear
    rw [List.filter_filter, List.sum_eq_foldl, List.foldl_map]
    congr 2
    apply List.filter_congr
    intro a _
    cases ha : a.status == LeaveStatus.APPROVED <;>
      cases hy : a.year == year <;>
        simp [ha, hy, Bool.and_comm, Bool.and_assoc, Bool.and_left_comm]
  · unfold calculateUsedLeaveDays getLeaveRecordsByEmployeeAndYear
    rcases hr with h | h <;>
      by_cases hm : (r.employeeId == employeeId && r.year == year) = true <;>
        simp [List.filter_cons, hm, h]

/-- Witness for C10 at a one-record ledger and a PENDING extra record. -/
theorem annual_balance_projection_witness :
    remainingAnnualDays 25
      [⟨1, 1, 19723, 19729, 7, 5, LeaveType.ANNUAL, LeaveStatus.APPROVED, none, none, 2024⟩]
      1 2024 =
    25 - (([⟨1, 1, 19723, 19729, 7, 5, LeaveType.ANNUAL, LeaveStatus.APPROVED, none, none, 2024⟩].filter
      fun rec : LeaveRecord =>
        rec.employeeId == 1 && rec.year == 2024
          && rec.status == LeaveStatus.APPROVED && rec.type == LeaveType.ANNUAL).map
            (fun rec => rec.workingDays)).sum :=
  (annual_balance_projection 25
    [⟨1, 1, 19723, 19729, 7, 5, .ANNUAL, .APPROVED, none, none, 2024⟩] 1 2024
    ⟨9, 1, 19900, 19905, 6, 4, .ANNUAL, .PENDING, none, none, 2024⟩
    (Or.inl rfl)).1

/-- C7 counterexample: a Create whose body carries `status: PENDING` succeeds
but persists status APPROVED — the caller-supplied status is not persisted. -/
theorem create_ignores_caller_status_cx :
    (post ⟨[⟨1, 25, .available, none, none, none⟩], []⟩
      ⟨some 1, some 19884, some 19889, some 6, some 5, some .ANNUAL,
       none, none, some .PENDING, some 2024⟩ 19000).1 =
      .created ⟨1, 1, 19884, 19889, 6, 5, .ANNUAL, .APPROVED, none, none, 2024⟩ ∧
    (⟨some 1, some 19884, some 19889, some 6, some 5, some .ANNUAL,
      none, none, some .PENDING, some 2024⟩ : CreateBody).status =
        some .PENDING ∧
    LeaveStatus.APPROVED ≠ LeaveStatus.PENDING := by
  decide

/-- C7 amended: every successfully created leave record has status APPROVED,
whatever the caller's request body contains — the handler hard-codes the
status and never reads a caller-supplied one. -/
theorem create_status_always_approved (s : SystemState) (body : CreateBody)
    (today : Nat) (r : LeaveRecord)
    (h : (post s body today).1 = .created r) :
    r.status = .APPROVED := by
  unfold post at h
  repeat' split at h
  all_goals simp_all
  all_goals subst h
  all_goals rfl

/-- Witness for C7's amended theorem at a concrete successful create. -/
theorem create_status_always_approved_witness :
    (⟨1, 1, 19884, 19889, 6, 5, LeaveType.ANNUAL, LeaveStatus.APPROVED,
      none, none, 2024⟩ : LeaveRecord).status = LeaveStatus.APPROVED :=
  create_status_always_approved ⟨[⟨1, 25, .available, none, none, none⟩], []⟩
    ⟨some 1, some 19884, some 19889, some 6, some 5, some .ANNUAL,
     none, none, some .PENDING, some 2024⟩ 19000
    ⟨1, 1, 19884, 19889, 6, 5, .ANNUAL, .APPROVED, none, none, 2024⟩
    (by decide)

/-- C3 counterexample: a Create over the Mon–Fri week 2024-03-11..2024-03-15
(5 calendar days, 5 working days) carrying caller-supplied counts of 99
succeeds and persists 99 for both — the Calendar Arithmetic values are not
enforced. -/
theorem create_persists_caller_day_counts_cx :
    (post ⟨[⟨1, 25, .available, none, none, none⟩], []⟩
      ⟨some 1, some 19793, some 19797, some 99, some 99, some .ANNUAL,
       none, none, none, some 2024⟩ 19000).1 =
      .created ⟨1, 1, 19793, 19797, 99, 99, .ANNUAL, .APPROVED, none, none, 2024⟩ ∧
    (19793 : Nat) = epochDay 2024 3 11 ∧ (19797 : Nat) = epochDay 2024 3 15 ∧
    calculateTotalDays 19793 19797 = 5 ∧
    calculateWorkingDays 19793 19797 = 5 ∧
    (99 : Int) ≠ 5 := by
  decide

/-- C3 amended: a successful Create or Update persists exactly the
caller-supplied `totalDays` and `workingDays`, uncontested — the handlers
never recompute or validate them against the persisted dates. -/
theorem create_update_persist_caller_day_counts
    (s : SystemState) (body : CreateBody) (ubody : UpdateBody)
    (recordId today : Nat) (r u : LeaveRecord)
    (hc : (post s body today).1 = .created r)
    (hu : (put s recordId ubody today).1 = .updated u) :
    (body.totalDays = some r.totalDays ∧ body.workingDays = some r.workingDays) ∧
    (ubody.totalDays = some u.totalDays ∧ ubody.workingDays = some u.workingDays) := by
  constructor
  · unfold post at hc
    repeat' split at hc
    all_goals simp_all
    all_goals subst hc
    all_goals exact ⟨rfl, rfl⟩
  · unfold put at hu
    repeat' split at hu
    all_goals simp_all
    all_goals subst hu
    all_goals exact ⟨rfl, rfl⟩

/-- Witness for C3's amended theorem: a state with one employee and one
record in which both a create and an update succeed. -/
theorem create_update_persist_caller_day_counts_witness :
    ((some (99 : Int) =
        some (⟨2, 1, 19793, 19797, 99, 99, LeaveType.ANNUAL, LeaveStatus.APPROVED,
          none, none, 2024⟩ : LeaveRecord).totalDays) ∧
      (some (99 : Int) =
        some (⟨2, 1, 19793, 19797, 99, 99, LeaveType.ANNUAL, LeaveStatus.APPROVED,
          none, none, 2024⟩ : LeaveRecord).workingDays)) ∧
    ((some (77 : Int) =
        some (⟨1, 1, 19900, 19904, 77, 77, LeaveType.SICK, LeaveStatus.PENDING,
          none, none, 2024⟩ : LeaveRecord).totalDays) ∧
      (some (77 : Int) =
        some (⟨1, 1, 19900, 19904, 77, 77, LeaveType.SICK, LeaveStatus.PENDING,
          none, none, 2024⟩ : LeaveRecord).workingDays)) :=
  create_update_persist_caller_day_counts
    ⟨[⟨1, 25, .available, none, none, none⟩],
     [⟨1, 1, 19850, 19855, 6, 4, .ANNUAL, .APPROVED, none, none, 2024⟩]⟩
    ⟨some 1, some 19793, some 19797, some 99, some 99, some .ANNUAL,
     none, none, none, some 2024⟩
    ⟨some 19900, some 19904, some 77, some 77, some .SICK, some .PENDING,
     none, none, some 2024⟩
    1 19000
    ⟨2, 1, 19793, 19797, 99, 99, .ANNUAL, .APPROVED, none, none, 2024⟩
    ⟨1, 1, 19900, 19904, 77, 77, .SICK, .PENDING, none, none, 2024⟩
    (by decide) (by decide)

/-- C8 counterexample: an Update supplying only new dates for an existing,
conflict-free record is rejected with 400 missing-required-fields and leaves
the state unchanged — partial bodies do not succeed. -/
theorem put_rejects_partial_body_cx :
    put ⟨[⟨1, 25, .available, none, none, none⟩],
         [⟨1, 1, 19850, 19855, 6, 4, .ANNUAL, .APPROVED, none, none, 2024⟩]⟩
      1 ⟨some 19900, some 19904, none, none, none, none, none, none, none⟩ 19000 =
    (.missingFields,
     ⟨[⟨1, 25, .available, none, none, none⟩],
      [⟨1, 1, 19850, 19855, 6, 4, .ANNUAL, .APPROVED, none, none, 2024⟩]⟩) := by
  decide

/-- C8 amended: an Update must supply startDate, endDate, totalDays,
workingDays, type, status and year; a body missing any of them is rejected
with 400 and changes nothing, while a body supplying all of them (with the
numeric fields non-zero), a valid interval, an existing record and no overlap
conflict succeeds with the updated record, only notes and bonus being
optional. -/
theorem put_requires_all_fields
    (s : SystemState) (recordId today : Nat) (body : UpdateBody)
    (sd ed : Nat) (td wd yr : Int) (ty : LeaveType) (st : LeaveStatus)
    (nt : Option String) (bn : Option Int) (existing : LeaveRecord)
    (hmiss : body.startDate = none ∨ body.endDate = none ∨
      body.totalDays = none ∨ body.workingDays = none ∨ body.type = none ∨
      body.status = none ∨ body.year = none)
    (htd : td ≠ 0) (hwd : wd ≠ 0) (hyr : yr ≠ 0) (hdv : sd < ed)
    (hrec : s.leaveRecords.find? (fun r => r.id == recordId) = some existing)
    (hno : (otherActiveRecordsOf s existing.employeeId recordId).find?
        (fun r => datesOverlap sd ed r.startDate r.endDate) = none) :
    put s recordId body today = (.missingFields, s) ∧
    (put s recordId ⟨some sd, some ed, some td, some wd, some ty, some st,
        nt, bn, some yr⟩ today).1 =
      .updated ⟨recordId, existing.employeeId, sd, ed, td, wd, ty, st, nt, bn, yr⟩ := by
  constructor
  · rcases body with ⟨bsd, bed, btd, bwd, bty, bst, bnt, bbn, byr⟩
    cases bsd <;> cases bed <;> cases btd <;> cases bwd <;> cases bty <;>
      cases bst <;> cases byr <;> simp_all [put]
  · have hne : ¬ (ed ≤ sd) := by omega
    simp [put, hne, htd, hwd, hyr, hrec, hno]

/-- Witness for C8's amended theorem at a concrete one-record state. -/
theorem put_requires_all_fields_witness :
    put ⟨[⟨1, 25, AvailabilityStatus.available, none, none, none⟩],
         [⟨1, 1, 19850, 19855, 6, 4, LeaveType.ANNUAL, LeaveStatus.APPROVED,
           none, none, 2024⟩]⟩
      1 ⟨some 19900, some 19904, none, none, none, none, none, none, none⟩
      19000 =
    (.missingFields,
     ⟨[⟨1, 25, AvailabilityStatus.available, none, none, none⟩],
      [⟨1, 1, 19850, 19855, 6, 4, LeaveType.ANNUAL, LeaveStatus.APPROVED,
        none, none, 2024⟩]⟩) ∧
    (put ⟨[⟨1, 25, AvailabilityStatus.available, none, none, none⟩],
          [⟨1, 1, 19850, 19855, 6, 4, LeaveType.ANNUAL, LeaveStatus.APPROVED,
            none, none, 2024⟩]⟩
      1 ⟨some 19900, some 19904, some 5, some 3, some LeaveType.SICK,
         some LeaveStatus.PENDING, none, none, some 2024⟩ 19000).1 =
      .updated ⟨1, 1, 19900, 19904, 5, 3, LeaveType.SICK, LeaveStatus.PENDING,
        none, none, 2024⟩ :=
  put_requires_all_fields
    ⟨[⟨1, 25, .available, none, none, none⟩],
     [⟨1, 1, 19850, 19855, 6, 4, .ANNUAL, .APPROVED, none, none, 2024⟩]⟩
    1 19000 ⟨some 19900, some 19904, none, none, none, none, none, none, none⟩
    19900 19904 5 3 2024 .SICK .PENDING none none
    ⟨1, 1, 19850, 19855, 6, 4, .ANNUAL, .APPROVED, none, none, 2024⟩
    (Or.inr (Or.inr (Or.inl rfl)))
    (by decide) (by decide) (by decide) (by decide) (by decide) (by decide)

/-- C4: for well-formed requests, Create conflicts (409) exactly when the
candidate interval overlaps some APPROVED/PENDING record of the employee, and
Update conflicts exactly when it overlaps some *other* APPROVED/PENDING
record of the owner; the 409 payload names the first colliding record's id,
period, type and status together with the requested period; and when every
record of the employee overlapping the candidate is REJECTED (e.g. a record
over the identical dates whose status was set to REJECTED), Create succeeds. -/
theorem conflict_iff_active_overlap
    (s : SystemState) (today : Nat)
    (cbody : CreateBody) (eid sd ed : Nat) (td wd yr : Int) (ty : LeaveType)
    (ubody : UpdateBody) (recordId usd ued : Nat) (utd uwd uyr : Int)
    (uty : LeaveType) (ust : LeaveStatus) (existing : LeaveRecord)
    (hb1 : cbody.employeeId = some eid) (hb2 : cbody.startDate = some sd)
    (hb3 : cbody.endDate = some ed) (hb4 : cbody.totalDays = some td)
    (hb5 : cbody.workingDays = some wd) (hb6 : cbody.type = some ty)
    (hb7 : cbody.year = some yr)
    (htd : td ≠ 0) (hwd : wd ≠ 0) (hyr : yr ≠ 0)
    (hemp : (s.employees.find? (fun e => e.id == eid)).isSome)
    (hdv : sd < ed)
    (hu1 : ubody.startDate = some usd) (hu2 : ubody.endDate = some ued)
    (hu3 : ubody.totalDays = some utd) (hu4 : ubody.workingDays = some uwd)
    (hu5 : ubody.type = some uty) (hu6 : ubody.status = some ust)
    (hu7 : ubody.year = some uyr)
    (hutd : utd ≠ 0) (huwd : uwd ≠ 0) (huyr : uyr ≠ 0) (hudv : usd < ued)
    (hrec : s.leaveRecords.find? (fun r => r.id == recordId) = some existing) :
    ((∃ c rs re, (post s cbody today).1 = .conflict c rs re) ↔
      ∃ r ∈ activeRecordsOf s eid, datesOverlap sd ed r.startDate r.endDate = true) ∧
    (∀ c rs re, (post s cbody today).1 = .conflict c rs re →
      ∃ r, (activeRecordsOf s eid).find?
          (fun r => datesOverlap sd ed r.startDate r.endDate) = some r ∧
        c = ⟨r.id, r.startDate, r.endDate, r.type, r.status⟩ ∧ rs = sd ∧ re = ed) ∧
    ((∀ r ∈ s.leaveRecords, r.employeeId = eid →
        datesOverlap sd ed r.startDate r.endDate = true → r.status = .REJECTED) →
      ∃ rec, (post s cbody today).1 = .created rec) ∧
    ((∃ c rs re, (put s recordId ubody today).1 = .conflict c rs re) ↔
      ∃ r ∈ otherActiveRecordsOf s existing.employeeId recordId,
        datesOverlap usd ued r.startDate r.endDate = true) ∧
    (∀ c rs re, (put s recordId ubody today).1 = .conflict c rs re →
      ∃ r, (otherActiveRecordsOf s existing.employeeId recordId).find?
          (fun r => datesOverlap usd ued r.startDate r.endDate) = some r ∧
        c = ⟨r.id, r.startDate, r.endDate, r.type, r.status⟩ ∧ rs = usd ∧ re = ued) := by
  obtain ⟨emp, hemp'⟩ := Option.isSome_iff_exists.mp hemp
  have hne : ¬ (ed ≤ sd) := by omega
  have hune : ¬ (ued ≤ usd) := by omega
  refine ⟨?_, ?_, ?_, ?_, ?_⟩
  · cases hf : (activeRecordsOf s eid).find?
        (fun r => datesOverlap sd ed r.startDate r.endDate) with
    | some ol =>
      constructor
      · intro _
        exact ⟨ol, List.mem_of_find?_eq_some hf, by simpa using List.find?_some hf⟩
      · intro _
        exact ⟨⟨ol.id, ol.startDate, ol.endDate, ol.type, ol.status⟩, sd, ed, by
          simp [post, hb1, hb2, hb3, hb4, hb5, hb6, hb7, htd, hwd, hyr,
            hemp', hne, hf]⟩
    | none =>
      constructor
      · rintro ⟨c, rs, re, hcon⟩
        simp [post, hb1, hb2, hb3, hb4, hb5, hb6, hb7, htd, hwd, hyr,
          hemp', hne, hf] at hcon
      · rintro ⟨r, hr, hov⟩
        rw [List.find?_eq_none] at hf
        exact absurd hov (by simpa using hf r hr)
  · intro c rs re hcon
    cases hf : (activeRecordsOf s eid).find?
        (fun r => datesOverlap sd ed r.startDate r.endDate) with
    | some ol =>
      refine ⟨ol, rfl, ?_⟩
      simp [post, hb1, hb2, hb3, hb4, hb5, hb6, hb7, htd, hwd, hyr,
        hemp', hne, hf] at hcon
      exact ⟨hcon.1.symm, hcon.2.1.symm, hcon.2.2.symm⟩
    | none =>
      simp [post, hb1, hb2, hb3, hb4, hb5, hb6, hb7, htd, hwd, hyr,
        hemp', hne, hf] at hcon
  · intro hall
    cases hf : (activeRecordsOf s eid).find?
        (fun r => datesOverlap sd ed r.startDate r.endDate) with
    | some ol =>
      exfalso
      have hmem := List.mem_of_find?_eq_some hf
      have hov : datesOverlap sd ed ol.startDate ol.endDate = true := by
        simpa using List.find?_some hf
      rw [activeRecordsOf, List.mem_filter] at hmem
      have heid : ol.employeeId = eid := by
        have := hmem.2
        simp at this
        exact this.1
      have hrej := hall ol hmem.1 heid hov
      have := hmem.2
      simp [hrej] at this
    | none =>
      exact ⟨⟨freshId s, eid, sd, ed, td, wd, ty, .APPROVED,
          cbody.notes, cbody.bonus, yr⟩, by
        simp [post, hb1, hb2, hb3, hb4, hb5, hb6, hb7, htd, hwd, hyr,
          hemp', hne, hf]⟩
  · cases hf : (otherActiveRecordsOf s existing.employeeId recordId).find?
        (fun r => datesOverlap usd ued r.startDate r.endDate) with
    | some ol =>
      constructor
      · intro _
        exact ⟨ol, List.mem_of_find?_eq_some hf, by simpa using List.find?_some hf⟩
      · intro _
        exact ⟨⟨ol.id, ol.startDate, ol.endDate, ol.type, ol.status⟩, usd, ued, by
          simp [put, hu1, hu2, hu3, hu4, hu5, hu6, hu7, hutd, huwd, huyr,
            hune, hrec, hf]⟩
    | none =>
      constructor
      · rintro ⟨c, rs, re, hcon⟩
        simp [put, hu1, hu2, hu3, hu4, hu5, hu6, hu7, hutd, huwd, huyr,
          hune, hrec, hf] at hcon
      · rintro ⟨r, hr, hov⟩
        rw [List.find?_eq_none] at hf
        exact absurd hov (by simpa using hf r hr)
  · intro c rs re hcon
    cases hf : (otherActiveRecordsOf s existing.employeeId recordId).find?
        (fun r => datesOverlap usd ued r.startDate r.endDate) with
    | some ol =>
      refine ⟨ol, rfl, ?_⟩
      simp [put, hu1, hu2, hu3, hu4, hu5, hu6, hu7, hutd, huwd, huyr,
        hune, hrec, hf] at hcon
      exact ⟨hcon.1.symm, hcon.2.1.symm, hcon.2.2.symm⟩
    | none =>
      simp [put, hu1, hu2, hu3, hu4, hu5, hu6, hu7, hutd, huwd, huyr,
        hune, hrec, hf] at hcon

/-- Sample state for the C4 witness: one employee owning one REJECTED record
over 2024-06-10..2024-06-15 (epoch days 19884..19889). -/
def sampleState : SystemState :=
  ⟨[⟨1, 25, .available, none, none, none⟩],
   [⟨1, 1, 19884, 19889, 6, 5, .ANNUAL, .REJECTED, none, none, 2024⟩]⟩

/-- Sample create body over the identical dates of the REJECTED record. -/
def sampleCreateBody : CreateBody :=
  ⟨some 1, some 19884, some 19889, some 6, some 5, some .ANNUAL,
   none, none, none, some 2024⟩

/-- Sample full-field update body. -/
def sampleUpdateBody : UpdateBody :=
  ⟨some 19900, some 19904, some 5, some 3, some .SICK, some .PENDING,
   none, none, some 2024⟩

/-- The REJECTED record of `sampleState`. -/
def sampleRejected : LeaveRecord :=
  ⟨1, 1, 19884, 19889, 6, 5, .ANNUAL, .REJECTED, none, none, 2024⟩

/-- Witness for C4 at `sampleState`: in particular the create over the
identical dates of the REJECTED record succeeds. -/
theorem conflict_iff_active_overlap_witness :
    ((∃ c rs re, (post sampleState sampleCreateBody 19000).1 = .conflict c rs re) ↔
      ∃ r ∈ activeRecordsOf sampleState 1,
        datesOverlap 19884 19889 r.startDate r.endDate = true) ∧
    (∀ c rs re, (post sampleState sampleCreateBody 19000).1 = .conflict c rs re →
      ∃ r, (activeRecordsOf sampleState 1).find?
          (fun r => datesOverlap 19884 19889 r.startDate r.endDate) = some r ∧
        c = ⟨r.id, r.startDate, r.endDate, r.type, r.status⟩ ∧
        rs = 19884 ∧ re = 19889) ∧
    ((∀ r ∈ sampleState.leaveRecords, r.employeeId = 1 →
        datesOverlap 19884 19889 r.startDate r.endDate = true →
        r.status = .REJECTED) →
      ∃ rec, (post sampleState sampleCreateBody 19000).1 = .created rec) ∧
    ((∃ c rs re, (put sampleState 1 sampleUpdateBody 19000).1 = .conflict c rs re) ↔
      ∃ r ∈ otherActiveRecordsOf sampleState sampleRejected.employeeId 1,
        datesOverlap 19900 19904 r.startDate r.endDate = true) ∧
    (∀ c rs re, (put sampleState 1 sampleUpdateBody 19000).1 = .conflict c rs re →
      ∃ r, (otherActiveRecordsOf sampleState sampleRejected.employeeId 1).find?
          (fun r => datesOverlap 19900 19904 r.startDate r.endDate) = some r ∧
        c = ⟨r.id, r.startDate, r.endDate, r.type, r.status⟩ ∧
        rs = 19900 ∧ re = 19904) :=
  conflict_iff_active_overlap sampleState 19000
    sampleCreateBody 1 19884 19889 6 5 2024 .ANNUAL
    sampleUpdateBody 1 19900 19904 5 3 2024 .SICK .PENDING sampleRejected
    rfl rfl rfl rfl rfl rfl rfl
    (by decide) (by decide) (by decide) (by decide) (by decide)
    rfl rfl rfl rfl rfl rfl rfl
    (by decide) (by decide) (by decide) (by decide) (by decide)

/-! ## Preservation of the no-overlap invariant -/

theorem mem_le_foldr_max (l : List Nat) (x : Nat) (h : x ∈ l) :
    x ≤ l.foldr max 0 := by
  induction l with
  | nil => simp at h
  | cons a l ih =>
    rcases List.mem_cons.mp h with rfl | h2
    · exact le_max_left _ _
    · exact le_trans (ih h2) (le_max_right _ _)

/-- A generated id differs from every stored id. -/
theorem freshId_ne (s : SystemState) (r : LeaveRecord) (h : r ∈ s.leaveRecords) :
    r.id ≠ freshId s := by
  have hle := mem_le_foldr_max (s.leaveRecords.map (·.id)) r.id
    (List.mem_map_of_mem _ h)
  unfold freshId
  omega

/-- Replacing the record with a given id keeps the stored id list unchanged. -/
theorem map_id_replace (l : List LeaveRecord) (recordId : Nat)
    (newRecord : LeaveRecord) (hid : newRecord.id = recordId) :
    ((l.map fun r => if r.id == recordId then newRecord else r).map (·.id)) =
      l.map (·.id) := by
  induction l with
  | nil => rfl
  | cons a l ih =>
    simp only [List.map_cons, ih]
    by_cases ha : a.id == recordId
    · have ha' : a.id = recordId := by simpa using ha
      simp [ha, hid, ha']
    · simp [ha]

/-- Replacing one record by a record that conflicts with no other active
record of its employee keeps the table pairwise conflict-free. -/
theorem pairwise_replace (l : List LeaveRecord) (recordId : Nat)
    (newRecord : LeaveRecord) (hid : newRecord.id = recordId)
    (hnd : (l.map (·.id)).Nodup) (hp : l.Pairwise noConflict)
    (hsafe : ∀ r ∈ l, r.id ≠ recordId → r.employeeId = newRecord.employeeId →
      isActive r = true →
      datesOverlap newRecord.startDate newRecord.endDate r.startDate r.endDate = false) :
    (l.map fun r => if r.id == recordId then newRecord else r).Pairwise noConflict := by
  induction l with
  | nil => simp
  | cons a l ih =>
    rw [List.map_cons, List.pairwise_cons]
    rw [List.pairwise_cons] at hp
    rw [List.map_cons, List.nodup_cons] at hnd
    refine ⟨?_, ih hnd.2 hp.2 (fun r hr hr1 hr2 hr3 =>
      hsafe r (List.mem_cons_of_mem _ hr) hr1 hr2 hr3)⟩
    intro b' hb'
    rw [List.mem_map] at hb'
    obtain ⟨b, hb, rfl⟩ := hb'
    by_cases ha : a.id == recordId
    · have ha' : a.id = recordId := by simpa using ha
      have hbne : b.id ≠ recordId := by
        intro hbid
        exact hnd.1 (by
          rw [ha', ← hbid]
          exact List.mem_map_of_mem _ hb)
      rw [if_pos ha, if_neg (show ¬ ((b.id == recordId) = true) from by simpa using hbne)]
      intro hemp _ hact2
      exact hsafe b (List.mem_cons_of_mem _ hb) hbne hemp.symm hact2
    · by_cases hbeq : b.id == recordId
      · rw [if_neg (show ¬ ((a.id == recordId) = true) from ha), if_pos hbeq]
        intro hemp hact1 _
        rw [datesOverlap_comm]
        exact hsafe a (List.mem_cons_self _ _) (by simpa using ha) hemp hact1
      · rw [if_neg (show ¬ ((a.id == recordId) = true) from ha),
          if_neg (show ¬ ((b.id == recordId) = true) from hbeq)]
        exact hp.1 b hb

/-- Appending a fresh-id record that passed the Create overlap check keeps
id uniqueness and the no-overlap invariant. -/
theorem inv_append (s : SystemState) (eid sd ed : Nat) (td wd : Int)
    (ty : LeaveType) (nt : Option String) (bn : Option Int) (yr : Int)
    (hn : idsNodup s.leaveRecords) (hp : noOverlapInv s.leaveRecords)
    (hfnone : (activeRecordsOf s eid).find?
      (fun r => datesOverlap sd ed r.startDate r.endDate) = none) :
    idsNodup (s.leaveRecords ++
      [⟨freshId s, eid, sd, ed, td, wd, ty, .APPROVED, nt, bn, yr⟩]) ∧
    noOverlapInv (s.leaveRecords ++
      [⟨freshId s, eid, sd, ed, td, wd, ty, .APPROVED, nt, bn, yr⟩]) := by
  constructor
  · unfold idsNodup at hn ⊢
    simp only [List.map_append, List.map_cons, List.map_nil, List.nodup_append]
    refine ⟨hn, List.nodup_singleton _, ?_⟩
    intro x hx
    rw [List.mem_map] at hx
    obtain ⟨r, hr, rfl⟩ := hx
    simpa using fun hcontra => freshId_ne s r hr (by simpa using hcontra)
  · unfold noOverlapInv at hp ⊢
    rw [List.pairwise_append]
    refine ⟨hp, List.pairwise_singleton _ _, ?_⟩
    intro r hr b hb
    rw [List.mem_singleton] at hb
    subst hb
    intro hemp hact _
    rw [List.find?_eq_none] at hfnone
    have hmem : r ∈ activeRecordsOf s eid := by
      rw [activeRecordsOf, List.mem_filter]
      refine ⟨hr, ?_⟩
      simp only [hemp]
      simp [isActive] at hact ⊢
      tauto
    have hov := hfnone r hmem
    rw [datesOverlap_comm]
    simpa using hov

/-- Case characterization of the Create handler's resulting state: either a
failure leaving the state unchanged, or a create that passed the overlap
check, appended the new APPROVED record, and refreshed the snapshot exactly
when the new period covers today. -/
theorem post_state_cases (s : SystemState) (body : CreateBody) (today : Nat) :
    (post s body today).2 = s ∨
    ∃ eid sd ed td wd ty nt bn yr,
      (activeRecordsOf s eid).find?
        (fun r => datesOverlap sd ed r.startDate r.endDate) = none ∧
      sd < ed ∧
      (post s body today).2 =
        (if sd ≤ today ∧ today ≤ ed then
          updateEmployeeSnapshot
            ⟨s.employees, s.leaveRecords ++
              [⟨freshId s, eid, sd, ed, td, wd, ty, .APPROVED, nt, bn, yr⟩]⟩ eid
            (if ed - today ≤ 3 then .returning_soon else .on_leave)
            (some sd) (some ed) (some ty)
        else
          ⟨s.employees, s.leaveRecords ++
            [⟨freshId s, eid, sd, ed, td, wd, ty, .APPROVED, nt, bn, yr⟩]⟩) := by
  rcases body with ⟨beid, bsd, bed, btd, bwd, bty, bnt, bbn, bst, byr⟩
  rcases beid with _ | eid
  · exact Or.inl rfl
  rcases bsd with _ | sd
  · exact Or.inl rfl
  rcases bed with _ | ed
  · exact Or.inl rfl
  rcases btd with _ | td
  · exact Or.inl rfl
  rcases bwd with _ | wd
  · exact Or.inl rfl
  rcases bty with _ | ty
  · exact Or.inl rfl
  rcases byr with _ | yr
  · exact Or.inl rfl
  by_cases hnz : (td = 0 ∨ wd = 0 ∨ yr = 0)
  · left
    simp [post, hnz]
  · cases hemp : s.employees.find? (fun e => e.id == eid) with
    | none =>
      left
      simp [post, hnz, hemp]
    | some empl =>
      by_cases hed : ed ≤ sd
      · left
        simp [post, hnz, hemp, hed]
      · cases hf : (activeRecordsOf s eid).find?
            (fun r => datesOverlap sd ed r.startDate r.endDate) with
        | some ol =>
          left
          simp [post, hnz, hemp, hed, hf]
        | none =>
          right
          refine ⟨eid, sd, ed, td, wd, ty, bnt, bbn, yr, hf, by omega, ?_⟩
          by_cases hcov : sd ≤ today ∧ today ≤ ed
          · simp [post, hnz, hemp, hed, hf, hcov]
          · simp [post, hnz, hemp, hed, hf, hcov]

/-- A successful or failed Create preserves id uniqueness and the
no-overlap invariant. -/
theorem post_preserves_inv (s : SystemState) (body : CreateBody) (today : Nat)
    (hn : idsNodup s.leaveRecords) (hp : noOverlapInv s.leaveRecords) :
    idsNodup (post s body today).2.leaveRecords ∧
      noOverlapInv (post s body today).2.leaveRecords := by
  rcases post_state_cases s body today with h |
    ⟨eid, sd, ed, td, wd, ty, nt, bn, yr, hf, hdv, heq⟩
  · rw [h]
    exact ⟨hn, hp⟩
  · rw [heq]
    have hrecs : (if sd ≤ today ∧ today ≤ ed then
        updateEmployeeSnapshot
          ⟨s.employees, s.leaveRecords ++
            [⟨freshId s, eid, sd, ed, td, wd, ty, .APPROVED, nt, bn, yr⟩]⟩ eid
          (if ed - today ≤ 3 then .returning_soon else .on_leave)
          (some sd) (some ed) (some ty)
      else
        (⟨s.employees, s.leaveRecords ++
          [⟨freshId s, eid, sd, ed, td, wd, ty, .APPROVED, nt, bn, yr⟩]⟩ :
            SystemState)).leaveRecords =
        s.leaveRecords ++
          [⟨freshId s, eid, sd, ed, td, wd, ty, .APPROVED, nt, bn, yr⟩] := by
      split <;> rfl
    rw [hrecs]
    exact inv_append s eid sd ed td wd ty nt bn yr hn hp hf

/-- Case characterization of the Update handler's resulting state: either a
failure leaving the state unchanged, or an update that found the record,
passed the overlap check against the employee's other active records,
replaced the record, and ran the source's partial snapshot refresh. -/
theorem put_state_cases (s : SystemState) (recordId : Nat) (body : UpdateBody)
    (today : Nat) :
    (put s recordId body today).2 = s ∨
    ∃ existing sd ed td wd ty st nt bn yr,
      s.leaveRecords.find? (fun r => r.id == recordId) = some existing ∧
      (otherActiveRecordsOf s existing.employeeId recordId).find?
        (fun r => datesOverlap sd ed r.startDate r.endDate) = none ∧
      sd < ed ∧
      (put s recordId body today).2 =
        (let newRecord : LeaveRecord :=
          ⟨recordId, existing.employeeId, sd, ed, td, wd, ty, st, nt, bn, yr⟩;
        let s1 : SystemState :=
          ⟨s.employees, s.leaveRecords.map fun r =>
            if r.id == recordId then newRecord else r⟩;
        if sd ≤ today ∧ today ≤ ed ∧ st = .APPROVED then
          updateEmployeeSnapshot s1 existing.employeeId
            (if ed - today ≤ 3 then .returning_soon else .on_leave)
            (some sd) (some ed) (some ty)
        else if st ≠ .APPROVED then
          match currentActiveLeave s1.leaveRecords existing.employeeId today with
          | some _ => s1
          | none =>
            updateEmployeeSnapshot s1 existing.employeeId .available none none none
        else s1) := by
  rcases body with ⟨bsd, bed, btd, bwd, bty, bst, bnt, bbn, byr⟩
  rcases bsd with _ | sd
  · exact Or.inl rfl
  rcases bed with _ | ed
  · exact Or.inl rfl
  rcases btd with _ | td
  · exact Or.inl rfl
  rcases bwd with _ | wd
  · exact Or.inl rfl
  rcases bty with _ | ty
  · exact Or.inl rfl
  rcases bst with _ | st
  · exact Or.inl rfl
  rcases byr with _ | yr
  · exact Or.inl rfl
  by_cases hnz : (td = 0 ∨ wd = 0 ∨ yr = 0)
  · left
    simp [put, hnz]
  · by_cases hed : ed ≤ sd
    · left
      simp [put, hnz, hed]
    · cases hrec : s.leaveRecords.find? (fun r => r.id == recordId) with
      | none =>
        left
        simp [put, hnz, hed, hrec]
      | some existing =>
        cases hf : (otherActiveRecordsOf s existing.employeeId recordId).find?
            (fun r => datesOverlap sd ed r.startDate r.endDate) with
        | some ol =>
          left
          simp [put, hnz, hed, hrec, hf]
        | none =>
          right
          refine ⟨existing, sd, ed, td, wd, ty, st, bnt, bbn, yr,
            rfl, hf, by omega, ?_⟩
          simp [put, hnz, hed, hrec, hf]

/-- Case characterization of the Delete handler's resulting state. -/
theorem del_state_cases (s : SystemState) (recordId today : Nat) :
    (s.leaveRecords.find? (fun r => r.id == recordId) = none ∧
      (del s recordId today).2 = s) ∨
    ∃ existing,
      s.leaveRecords.find? (fun r => r.id == recordId) = some existing ∧
      (del s recordId today).2 =
        (let s1 : SystemState :=
          ⟨s.employees, s.leaveRecords.filter fun r => r.id != recordId⟩;
        match currentActiveLeave s1.leaveRecords existing.employeeId today with
        | some active =>
          updateEmployeeSnapshot s1 existing.employeeId
            (if active.endDate - today ≤ 3 then .returning_soon else .on_leave)
            (some active.startDate) (some active.endDate) (some active.type)
        | none =>
          updateEmployeeSnapshot s1 existing.employeeId .available none none none) := by
  cases hrec : s.leaveRecords.find? (fun r => r.id == recordId) with
  | none =>
    left
    exact ⟨rfl, by simp [del, hrec]⟩
  | some existing =>
    right
    refine ⟨existing, rfl, ?_⟩
    simp [del, hrec]

/-- A successful or failed Update preserves id uniqueness and the
no-overlap invariant. -/
theorem put_preserves_inv (s : SystemState) (recordId : Nat) (body : UpdateBody)
    (today : Nat)
    (hn : idsNodup s.leaveRecords) (hp : noOverlapInv s.leaveRecords) :
    idsNodup (put s recordId body today).2.leaveRecords ∧
      noOverlapInv (put s recordId body today).2.leaveRecords := by
  rcases put_state_cases s recordId body today with h |
    ⟨existing, sd, ed, td, wd, ty, st, nt, bn, yr, hrec, hf, hdv, heq⟩
  · rw [h]
    exact ⟨hn, hp⟩
  · rw [heq]
    have hinv :
        idsNodup (s.leaveRecords.map fun r =>
          if r.id == recordId then
            (⟨recordId, existing.employeeId, sd, ed, td, wd, ty, st, nt, bn, yr⟩ :
              LeaveRecord) else r) ∧
        noOverlapInv (s.leaveRecords.map fun r =>
          if r.id == recordId then
            (⟨recordId, existing.employeeId, sd, ed, td, wd, ty, st, nt, bn, yr⟩ :
              LeaveRecord) else r) := by
      constructor
      · unfold idsNodup at hn ⊢
        rw [map_id_replace s.leaveRecords recordId
          ⟨recordId, existing.employeeId, sd, ed, td, wd, ty, st, nt, bn, yr⟩ rfl]
        exact hn
      · refine pairwise_replace s.leaveRecords recordId
          ⟨recordId, existing.employeeId, sd, ed, td, wd, ty, st, nt, bn, yr⟩
          rfl hn hp ?_
        intro r hr hrne hremp hract
        rw [List.find?_eq_none] at hf
        have hmem : r ∈ otherActiveRecordsOf s existing.employeeId recordId := by
          rw [otherActiveRecordsOf, List.mem_filter]
          refine ⟨hr, ?_⟩
          simp only [hremp]
          simp [isActive] at hract ⊢
          refine ⟨by tauto, by simpa using hrne⟩
        have hov := hf r hmem
        simpa using hov
    dsimp only
    repeat' split
    all_goals exact hinv

/-- A successful or failed Delete preserves id uniqueness and the
no-overlap invariant. -/
theorem del_preserves_inv (s : SystemState) (recordId today : Nat)
    (hn : idsNodup s.leaveRecords) (hp : noOverlapInv s.leaveRecords) :
    idsNodup (del s recordId today).2.leaveRecords ∧
      noOverlapInv (del s recordId today).2.leaveRecords := by
  rcases del_state_cases s recordId today with ⟨-, h⟩ | ⟨existing, hrec, heq⟩
  · rw [h]
    exact ⟨hn, hp⟩
  · rw [heq]
    have hinv :
        idsNodup (s.leaveRecords.filter fun r => r.id != recordId) ∧
        noOverlapInv (s.leaveRecords.filter fun r => r.id != recordId) := by
      constructor
      · unfold idsNodup at hn ⊢
        exact (List.Sublist.map (fun r => r.id)
          (List.filter_sublist s.leaveRecords)).nodup hn
      · exact hp.sublist (List.filter_sublist _)
    dsimp only
    repeat' split
    all_goals exact hinv

/-- Any single operation preserves id uniqueness and the no-overlap invariant. -/
theorem applyOp_preserves_inv (s : SystemState) (today : Nat) (op : Op)
    (hn : idsNodup s.leaveRecords) (hp : noOverlapInv s.leaveRecords) :
    idsNodup (applyOp today s op).leaveRecords ∧
      noOverlapInv (applyOp today s op).leaveRecords := by
  cases op with
  | create body => exact post_preserves_inv s body today hn hp
  | update recordId body => exact put_preserves_inv s recordId body today hn hp
  | remove recordId => exact del_preserves_inv s recordId today hn hp

/-- C2: from any state with unique record ids in which no two APPROVED or
PENDING records of one employee overlap, every sequence of Create, Update
and Delete operations leads only to states still satisfying the no-overlap
invariant. -/
theorem no_overlap_invariant_preserved (s0 : SystemState) (today : Nat)
    (ops : List Op)
    (hn : idsNodup s0.leaveRecords) (hp : noOverlapInv s0.leaveRecords) :
    noOverlapInv (applyOps today s0 ops).leaveRecords := by
  induction ops generalizing s0 with
  | nil => exact hp
  | cons op ops ih =>
    rw [applyOps, List.foldl_cons]
    exact ih (applyOp today s0 op)
      (applyOp_preserves_inv s0 today op hn hp).1
      (applyOp_preserves_inv s0 today op hn hp).2

/-- Witness for C2: starting from one employee and an empty ledger, a
create followed by an update and a delete keeps the invariant. -/
theorem no_overlap_invariant_preserved_witness :
    noOverlapInv (applyOps 19000 ⟨[⟨1, 25, .available, none, none, none⟩], []⟩
      [Op.create ⟨some 1, some 19884, some 19889, some 6, some 5, some .ANNUAL,
        none, none, none, some 2024⟩,
       Op.update 1 ⟨some 19900, some 19904, some 5, some 3, some .SICK,
        some .PENDING, none, none, some 2024⟩,
       Op.remove 1]).leaveRecords :=
  no_overlap_invariant_preserved
    ⟨[⟨1, 25, .available, none, none, none⟩], []⟩ 19000
    [Op.create ⟨some 1, some 19884, some 19889, some 6, some 5, some .ANNUAL,
      none, none, none, some 2024⟩,
     Op.update 1 ⟨some 19900, some 19904, some 5, some 3, some .SICK,
      some .PENDING, none, none, some 2024⟩,
     Op.remove 1]
    (by simp [idsNodup]) List.Pairwise.nil

/-- C9: after a successful Delete of an existing record, the owner's stored
snapshot reflects the first remaining APPROVED record containing today — with
`returning_soon` exactly when that record ends within 3 days of now and
`on_leave` otherwise, and with that record's dates and type — or is reset to
available with the leave fields cleared when no remaining APPROVED record
contains today. -/
theorem delete_refreshes_snapshot (s : SystemState) (recordId today : Nat)
    (existing : LeaveRecord)
    (hrec : s.leaveRecords.find? (fun r => r.id == recordId) = some existing) :
    (del s recordId today).1 = .deleted ∧
    ∀ e ∈ (del s recordId today).2.employees, e.id = existing.employeeId →
      empSnapshot e =
        match currentActiveLeave
            (s.leaveRecords.filter fun r => r.id != recordId)
            existing.employeeId today with
        | some active =>
          ⟨if active.endDate - today ≤ 3 then .returning_soon else .on_leave,
           some active.startDate, some active.endDate, some active.type⟩
        | none => ⟨.available, none, none, none⟩ := by
  have h1 : (del s recordId today).1 = .deleted := by
    simp [del, hrec]
  rcases del_state_cases s recordId today with ⟨hnone, -⟩ | ⟨ex2, hrec2, heq⟩
  · rw [hrec] at hnone
    cases hnone
  · rw [hrec] at hrec2
    injection hrec2 with hex
    subst hex
    refine ⟨h1, ?_⟩
    intro e he heid
    rw [heq] at he
    dsimp only at he
    cases hcal : currentActiveLeave
        (s.leaveRecords.filter fun r => r.id != recordId)
        existing.employeeId today with
    | some active =>
      rw [hcal] at he
      simp only [updateEmployeeSnapshot, List.mem_map] at he
      obtain ⟨e0, he0, rfl⟩ := he
      by_cases h0 : (e0.id == existing.employeeId) = true
      · rw [if_pos h0]
        rfl
      · rw [if_neg h0] at heid
        exact absurd heid (by simpa using h0)
    | none =>
      rw [hcal] at he
      simp only [updateEmployeeSnapshot, List.mem_map] at he
      obtain ⟨e0, he0, rfl⟩ := he
      by_cases h0 : (e0.id == existing.employeeId) = true
      · rw [if_pos h0]
        rfl
      · rw [if_neg h0] at heid
        exact absurd heid (by simpa using h0)

/-- Witness for C9: deleting the record covering today while a future
APPROVED record remains resets the snapshot to available. -/
theorem delete_refreshes_snapshot_witness :
    (del ⟨[⟨1, 25, .on_leave, some 19880, some 19890, some .ANNUAL⟩],
          [⟨1, 1, 19880, 19890, 11, 9, .ANNUAL, .APPROVED, none, none, 2024⟩,
           ⟨2, 1, 19990, 19995, 6, 4, .ANNUAL, .APPROVED, none, none, 2024⟩]⟩
      1 19885).1 = .deleted ∧
    ∀ e ∈ (del ⟨[⟨1, 25, .on_leave, some 19880, some 19890, some .ANNUAL⟩],
          [⟨1, 1, 19880, 19890, 11, 9, .ANNUAL, .APPROVED, none, none, 2024⟩,
           ⟨2, 1, 19990, 19995, 6, 4, .ANNUAL, .APPROVED, none, none, 2024⟩]⟩
      1 19885).2.employees, e.id = 1 →
      empSnapshot e =
        match currentActiveLeave
            ([⟨1, 1, 19880, 19890, 11, 9, .ANNUAL, .APPROVED, none, none, 2024⟩,
              ⟨2, 1, 19990, 19995, 6, 4, .ANNUAL, .APPROVED, none, none,
                2024⟩].filter fun r : LeaveRecord => r.id != 1)
            1 19885 with
        | some active =>
          ⟨if active.endDate - 19885 ≤ 3 then .returning_soon else .on_leave,
           some active.startDate, some active.endDate, some active.type⟩
        | none => ⟨.available, none, none, none⟩ :=
  delete_refreshes_snapshot
    ⟨[⟨1, 25, .on_leave, some 19880, some 19890, some .ANNUAL⟩],
     [⟨1, 1, 19880, 19890, 11, 9, .ANNUAL, .APPROVED, none, none, 2024⟩,
      ⟨2, 1, 19990, 19995, 6, 4, .ANNUAL, .APPROVED, none, none, 2024⟩]⟩
    1 19885
    ⟨1, 1, 19880, 19890, 11, 9, .ANNUAL, .APPROVED, none, none, 2024⟩
    (by decide)

/-! ## Snapshot-consistency infrastructure (C1) -/

/-- Two records of a uniquely-keyed table with the same id are equal. -/
theorem eq_of_mem_id (l : List LeaveRecord) (hn : (l.map (·.id)).Nodup)
    (r1 r2 : LeaveRecord) (h1 : r1 ∈ l) (h2 : r2 ∈ l) (h : r1.id = r2.id) :
    r1 = r2 := by
  induction l with
  | nil => cases h1
  | cons a l ih =>
    rw [List.map_cons, List.nodup_cons] at hn
    rcases List.mem_cons.mp h1 with rfl | h1' <;>
      rcases List.mem_cons.mp h2 with rfl | h2'
    · rfl
    · exact absurd (h ▸ List.mem_map_of_mem (·.id) h2') hn.1
    · exact absurd (h ▸ List.mem_map_of_mem (·.id) h1') hn.1
    · exact ih hn.2 h1' h2'

/-- The deriver over an employee's records, phrased through the
`currentActiveLeave` query of the PUT/DELETE handlers. -/
theorem deriver_eq_currentActiveLeave (records : List LeaveRecord)
    (eid now : Nat) :
    availabilityDeriver (records.filter fun r => r.employeeId == eid) now =
      (match currentActiveLeave records eid now with
      | some active =>
        (⟨if active.endDate - now ≤ 3 then .returning_soon else .on_leave,
          some active.startDate, some active.endDate, some active.type⟩ : Snapshot)
      | none => ⟨.available, none, none, none⟩) := by
  unfold availabilityDeriver currentActiveLeave
  rw [find?_filter_eq]
  have hpred : (fun r : LeaveRecord => (r.employeeId == eid) &&
      (r.status == LeaveStatus.APPROVED && decide (r.startDate ≤ now)
        && decide (now ≤ r.endDate))) =
      (fun r : LeaveRecord => r.employeeId == eid
        && r.status == LeaveStatus.APPROVED && decide (r.startDate ≤ now)
        && decide (now ≤ r.endDate)) := by
    funext r
    simp [Bool.and_assoc]
  rw [hpred]
  cases List.find? (fun r : LeaveRecord => r.employeeId == eid
    && r.status == LeaveStatus.APPROVED && decide (r.startDate ≤ now)
    && decide (now ≤ r.endDate)) records <;> rfl

/-- Appending a record that is not an APPROVED record containing `now`
leaves the derived snapshot unchanged. -/
theorem deriver_append_nonmatching (l : List LeaveRecord) (x : LeaveRecord)
    (now : Nat)
    (hx : (x.status == LeaveStatus.APPROVED && decide (x.startDate ≤ now)
      && decide (now ≤ x.endDate)) = false) :
    availabilityDeriver (l ++ [x]) now = availabilityDeriver l now := by
  unfold availabilityDeriver
  rw [List.find?_append]
  have hone : List.find? (fun r => r.status == LeaveStatus.APPROVED
      && decide (r.startDate ≤ now) && decide (now ≤ r.endDate)) [x] = none := by
    simp only [List.find?_cons, hx]
    rfl
  rw [hone, Option.or_none]

/-- Appending a record of another employee does not change an employee's
derived snapshot. -/
theorem deriver_filter_append_other (recs : List LeaveRecord) (x : LeaveRecord)
    (oid now : Nat) (hne : ¬ (x.employeeId = oid)) :
    availabilityDeriver ((recs ++ [x]).filter fun r => r.employeeId == oid) now =
      availabilityDeriver (recs.filter fun r => r.employeeId == oid) now := by
  rw [List.filter_append]
  have hx : (([x] : List LeaveRecord).filter fun r => r.employeeId == oid) = [] := by
    simp [List.filter_cons, hne]
  rw [hx, List.append_nil]

/-- Appending a record that does not cover `now` as APPROVED does not change
any employee's derived snapshot. -/
theorem deriver_filter_append_noncovering (recs : List LeaveRecord)
    (x : LeaveRecord) (oid now : Nat)
    (hx : (x.status == LeaveStatus.APPROVED && decide (x.startDate ≤ now)
      && decide (now ≤ x.endDate)) = false) :
    availabilityDeriver ((recs ++ [x]).filter fun r => r.employeeId == oid) now =
      availabilityDeriver (recs.filter fun r => r.employeeId == oid) now := by
  rw [List.filter_append]
  by_cases hemp : (x.employeeId == oid) = true
  · have hx1 : (([x] : List LeaveRecord).filter fun r => r.employeeId == oid) = [x] := by
      simp [List.filter_cons, hemp]
    rw [hx1]
    exact deriver_append_nonmatching _ x now hx
  · have hx1 : (([x] : List LeaveRecord).filter fun r => r.employeeId == oid) = [] := by
      simp [List.filter_cons, hemp]
    rw [hx1, List.append_nil]

/-- A snapshot write for one employee yields a consistent state when the
written snapshot matches the owner's derived value and every other
employee's stored snapshot matches its derived value. -/
theorem snapshot_consistent_update_owner
    (emps : List Employee) (recs : List LeaveRecord) (eid : Nat)
    (st : AvailabilityStatus) (sd ed : Option Nat) (ty : Option LeaveType)
    (today : Nat)
    (hown : availabilityDeriver (recs.filter fun r => r.employeeId == eid) today
      = ⟨st, sd, ed, ty⟩)
    (hother : ∀ e ∈ emps, e.id ≠ eid →
      empSnapshot e =
        availabilityDeriver (recs.filter fun r => r.employeeId == e.id) today) :
    snapshotConsistent (updateEmployeeSnapshot ⟨emps, recs⟩ eid st sd ed ty)
      today := by
  intro e he
  simp only [updateEmployeeSnapshot, List.mem_map] at he
  obtain ⟨e0, he0, rfl⟩ := he
  by_cases h0 : (e0.id == eid) = true
  · have h0' : e0.id = eid := by simpa using h0
    rw [if_pos h0]
    show (⟨st, sd, ed, ty⟩ : Snapshot) =
      availabilityDeriver (recs.filter fun r => r.employeeId == e0.id) today
    rw [h0', hown]
  · have h0' : e0.id ≠ eid := by simpa using h0
    rw [if_neg h0]
    show empSnapshot e0 =
      availabilityDeriver (recs.filter fun r => r.employeeId == e0.id) today
    exact hother e0 he0 h0'

/-- A state whose stored snapshots all match their derived values is
consistent. -/
theorem snapshot_consistent_keep (emps : List Employee)
    (recs : List LeaveRecord) (today : Nat)
    (h : ∀ e ∈ emps, empSnapshot e =
      availabilityDeriver (recs.filter fun r => r.employeeId == e.id) today) :
    snapshotConsistent ⟨emps, recs⟩ today := h

/-- After a create whose period covers today passed the overlap check, the
owner's derived snapshot is exactly the one the POST handler stores. -/
theorem post_owner_deriver (s : SystemState) (eid sd ed : Nat) (td wd : Int)
    (ty : LeaveType) (nt : Option String) (bn : Option Int) (yr : Int)
    (today : Nat)
    (hf : (activeRecordsOf s eid).find?
      (fun r => datesOverlap sd ed r.startDate r.endDate) = none)
    (hcov : sd ≤ today ∧ today ≤ ed) :
    availabilityDeriver ((s.leaveRecords ++
      [(⟨freshId s, eid, sd, ed, td, wd, ty, .APPROVED, nt, bn, yr⟩ :
        LeaveRecord)]).filter
        fun r => r.employeeId == eid) today =
      ⟨if ed - today ≤ 3 then .returning_soon else .on_leave,
       some sd, some ed, some ty⟩ := by
  obtain ⟨hc1, hc2⟩ := hcov
  rw [List.filter_append]
  have hsingle : (List.filter (fun r => r.employeeId == eid)
      [(⟨freshId s, eid, sd, ed, td, wd, ty, .APPROVED, nt, bn, yr⟩ : LeaveRecord)]) =
      [(⟨freshId s, eid, sd, ed, td, wd, ty, .APPROVED, nt, bn, yr⟩ : LeaveRecord)] := by
    simp [List.filter_cons]
  rw [hsingle]
  unfold availabilityDeriver
  rw [List.find?_append]
  have hpre : ((s.leaveRecords.filter fun r => r.employeeId == eid).find?
      (fun r => r.status == LeaveStatus.APPROVED && decide (r.startDate ≤ today)
        && decide (today ≤ r.endDate))) = none := by
    rw [List.find?_eq_none]
    intro r hr hq
    rw [List.mem_filter] at hr
    rw [List.find?_eq_none] at hf
    simp only [Bool.and_eq_true, beq_iff_eq, decide_eq_true_eq] at hq
    have hact : r ∈ activeRecordsOf s eid := by
      rw [activeRecordsOf, List.mem_filter]
      refine ⟨hr.1, ?_⟩
      have := hr.2
      simp only [Bool.and_eq_true] at this ⊢
      exact ⟨this, by simp [hq.1.1]⟩
    have hno := hf r hact
    have hovl : datesOverlap sd ed r.startDate r.endDate = true := by
      simp only [datesOverlap, Bool.and_eq_true, decide_eq_true_eq]
      constructor <;> omega
    simp [hovl] at hno
  rw [hpre]
  have hq : List.find? (fun r => r.status == LeaveStatus.APPROVED
      && decide (r.startDate ≤ today) && decide (today ≤ r.endDate))
      [(⟨freshId s, eid, sd, ed, td, wd, ty, .APPROVED, nt, bn, yr⟩ : LeaveRecord)] =
      some (⟨freshId s, eid, sd, ed, td, wd, ty, .APPROVED, nt, bn, yr⟩ : LeaveRecord) := by
    simp [List.find?_cons, hc1, hc2]
  rw [Option.none_or, hq]

/-- Removing a record owned by one employee does not change another
employee's record set (ids are unique). -/
theorem employeeRecords_del_other (s : SystemState) (recordId : Nat)
    (existing : LeaveRecord) (hn : idsNodup s.leaveRecords)
    (hmem : existing ∈ s.leaveRecords) (hid : existing.id = recordId)
    (oid : Nat) (hne : oid ≠ existing.employeeId) :
    ((s.leaveRecords.filter fun r => r.id != recordId).filter
      fun r => r.employeeId == oid) =
      s.leaveRecords.filter fun r => r.employeeId == oid := by
  rw [List.filter_filter]
  apply List.filter_congr
  intro r hr
  by_cases hemp : (r.employeeId == oid) = true
  · have hrne : r.id ≠ recordId := by
      intro hcontra
      have hre : r = existing :=
        eq_of_mem_id _ hn r existing hr hmem (by rw [hcontra, hid])
      rw [hre] at hemp
      have hre2 : existing.employeeId = oid := by simpa using hemp
      exact hne hre2.symm
    simp [hemp, hrne]
  · simp [hemp]

/-- C1 amended: from a state with unique record ids whose stored snapshots
match the Availability Deriver, every Create and every Delete (successful or
not) again leaves every employee's stored `currentStatus`/`currentLeave`
equal to the deriver applied to that employee's record set and today.
(Updates do not preserve this: see the counterexample.) -/
theorem snapshot_consistent_after_create_delete
    (s : SystemState) (today : Nat)
    (hn : idsNodup s.leaveRecords)
    (hc : snapshotConsistent s today) :
    (∀ body, snapshotConsistent (post s body today).2 today) ∧
    (∀ recordId, snapshotConsistent (del s recordId today).2 today) := by
  constructor
  · intro body
    rcases post_state_cases s body today with h |
      ⟨eid, sd, ed, td, wd, ty, nt, bn, yr, hf, hdv, heq⟩
    · rw [h]
      exact hc
    · rw [heq]
      by_cases hcov : sd ≤ today ∧ today ≤ ed
      · rw [if_pos hcov]
        apply snapshot_consistent_update_owner
        · exact post_owner_deriver s eid sd ed td wd ty nt bn yr today hf hcov
        · intro e he hne
          rw [deriver_filter_append_other s.leaveRecords
            ⟨freshId s, eid, sd, ed, td, wd, ty, .APPROVED, nt, bn, yr⟩
            e.id today (fun hx => hne hx.symm)]
          exact hc e he
      · rw [if_neg hcov]
        apply snapshot_consistent_keep
        intro e he
        rw [deriver_filter_append_noncovering s.leaveRecords
          ⟨freshId s, eid, sd, ed, td, wd, ty, .APPROVED, nt, bn, yr⟩
          e.id today ?_]
        · exact hc e he
        · have h1 : ¬ (sd ≤ today) ∨ ¬ (today ≤ ed) := by tauto
          rcases h1 with h1 | h1 <;> simp [h1]
  · intro recordId
    rcases del_state_cases s recordId today with ⟨-, h⟩ | ⟨existing, hrec, heq⟩
    · rw [h]
      exact hc
    · rw [heq]
      dsimp only
      have hmem := List.mem_of_find?_eq_some hrec
      have hid : existing.id = recordId := by simpa using List.find?_some hrec
      cases hcal : currentActiveLeave
          (s.leaveRecords.filter fun r => r.id != recordId)
          existing.employeeId today with
      | some active =>
        apply snapshot_consistent_update_owner
        · rw [deriver_eq_currentActiveLeave, hcal]
        · intro e he hne
          rw [employeeRecords_del_other s recordId existing hn hmem hid e.id hne]
          exact hc e he
      | none =>
        apply snapshot_consistent_update_owner
        · rw [deriver_eq_currentActiveLeave, hcal]
        · intro e he hne
          rw [employeeRecords_del_other s recordId existing hn hmem hid e.id hne]
          exact hc e he

/-- C1 counterexample: starting from a consistent state where the employee
is on leave over a record covering today, an Update that keeps the record
APPROVED but moves its dates into the future succeeds yet leaves the stored
snapshot untouched, so it no longer equals the deriver's output (available)
on the new record set. -/
theorem update_leaves_stale_snapshot_cx :
    (empSnapshot ⟨1, 25, .on_leave, some 19880, some 19890, some .ANNUAL⟩ =
      availabilityDeriver
        (employeeRecords
          ⟨[⟨1, 25, .on_leave, some 19880, some 19890, some .ANNUAL⟩],
           [⟨1, 1, 19880, 19890, 11, 9, .ANNUAL, .APPROVED, none, none, 2024⟩]⟩ 1)
        19885) ∧
    (put ⟨[⟨1, 25, .on_leave, some 19880, some 19890, some .ANNUAL⟩],
          [⟨1, 1, 19880, 19890, 11, 9, .ANNUAL, .APPROVED, none, none, 2024⟩]⟩
      1 ⟨some 19990, some 19995, some 6, some 4, some .ANNUAL, some .APPROVED,
         none, none, some 2024⟩ 19885).1 =
      .updated ⟨1, 1, 19990, 19995, 6, 4, .ANNUAL, .APPROVED, none, none, 2024⟩ ∧
    (put ⟨[⟨1, 25, .on_leave, some 19880, some 19890, some .ANNUAL⟩],
          [⟨1, 1, 19880, 19890, 11, 9, .ANNUAL, .APPROVED, none, none, 2024⟩]⟩
      1 ⟨some 19990, some 19995, some 6, some 4, some .ANNUAL, some .APPROVED,
         none, none, some 2024⟩ 19885).2.employees =
      [⟨1, 25, .on_leave, some 19880, some 19890, some .ANNUAL⟩] ∧
    empSnapshot ⟨1, 25, .on_leave, some 19880, some 19890, some .ANNUAL⟩ ≠
      availabilityDeriver
        (employeeRecords
          (put ⟨[⟨1, 25, .on_leave, some 19880, some 19890, some .ANNUAL⟩],
                [⟨1, 1, 19880, 19890, 11, 9, .ANNUAL, .APPROVED, none, none, 2024⟩]⟩
            1 ⟨some 19990, some 19995, some 6, some 4, some .ANNUAL,
               some .APPROVED, none, none, some 2024⟩ 19885).2 1)
        19885 := by
  decide

/-- Witness for C1's amended theorem at a concrete consistent one-employee
state. -/
theorem snapshot_consistent_after_create_delete_witness :
    (∀ body, snapshotConsistent
      (post ⟨[⟨1, 25, AvailabilityStatus.available, none, none, none⟩], []⟩
        body 19885).2 19885) ∧
    (∀ recordId, snapshotConsistent
      (del ⟨[⟨1, 25, AvailabilityStatus.available, none, none, none⟩], []⟩
        recordId 19885).2 19885) :=
  snapshot_consistent_after_create_delete
    ⟨[⟨1, 25, .available, none, none, none⟩], []⟩ 19885
    (by simp [idsNodup])
    (by
      intro e he
      rw [List.mem_singleton] at he
      subst he
      rfl)

end HolidayManager
